import Mathlib

/-!
# naconfig: a local mirror of a Nacos configuration store

Shallow embedding of `config.go` and `repo.go`.

* Go strings are Lean strings, Go `int` values are `Int`.
* A Go pointer or interface value that may be nil is an `Option`.
* The Nacos client (`config_client.IConfigClient`) is an external collaborator.
  It is embedded as a record of response functions that see the whole
  interaction history, so that any deterministic stateful client is covered;
  every call and every handler invocation is appended to a trace.
* Go map iteration order is unspecified; the order used by the drain loop of
  `subscribeOnline` is a parameter `rangeOrder`.
* `OnChange` closures run on threads of the client. Their atomic steps are the
  environment actions `EnvAct`; a schedule lists the actions that happen before
  each atomic step of the run.
-/

namespace Naconfig

/-! ## Go values -/

/-- Go error values as built by `fmt.Errorf`: `errorString` without the `%w`
verb, `wrapError` with it (the message and the wrapped error). -/
inductive GoError where
  | errorString (s : String)
  | wrapError (msg : String) (err : GoError)
  deriving DecidableEq, Repr

/-- Method `Error()` of a Go error. -/
def GoError.Error : GoError → String
  | .errorString s => s
  | .wrapError msg _ => msg

/-- Method `Unwrap()` of a Go error. -/
def GoError.Unwrap : GoError → Option GoError
  | .errorString _ => none
  | .wrapError _ err => some err

/-- Substring test on strings, `strings.Contains`. -/
def strContains (s sub : String) : Prop := sub.data <:+: s.data

instance (s sub : String) : Decidable (strContains s sub) := by
  unfold strContains
  infer_instance

/-- Identity of a Go function value of type `func(group, dataId, data string)`. -/
structure HandlerFn where
  id : Nat
  deriving DecidableEq, Repr

/-! ## config.go -/

structure EnvironmentDefine where
  NacosUrls : String
  NacosNamespace : String
  deriving DecidableEq, Repr

structure CacheConf where
  Dir : String
  NotLoadAtStart : Bool
  deriving DecidableEq, Repr

structure ClientAuthorization where
  UserName : String
  Password : String
  deriving DecidableEq, Repr

structure LocalLog where
  Dir : String
  Rotation : String
  MaxAge : Int
  Level : String
  deriving DecidableEq, Repr

structure LocalConf where
  AppName : String
  NameSpaceID : String
  Timeout : Int
  BeatInterval : Int
  CacheConfig : Option CacheConf
  Authorization : Option ClientAuthorization
  LogConfig : Option LocalLog
  OfflineMode : Bool
  deriving DecidableEq, Repr

structure ServerEndpoint where
  IP : String
  Port : Int
  Context : String
  Scheme : String
  deriving DecidableEq, Repr

structure SubscribeVar where
  Group : String
  ID : String
  HandlerName : String
  Handler : Option HandlerFn
  deriving DecidableEq, Repr

structure MatchVarHandler where
  Name : String
  Handler : Option HandlerFn
  deriving DecidableEq, Repr

structure ConfRoot where
  EnvDefine : EnvironmentDefine
  Endpoints : List ServerEndpoint
  Local : Option LocalConf
  SubscribeVars : List SubscribeVar
  deriving DecidableEq, Repr

def InitMatchVarHandler (name : String) (h : Option HandlerFn) : MatchVarHandler :=
  { Name := name, Handler := h }

def CacheConf.CheckValid (this : CacheConf) : String :=
  if this.Dir.length = 0 then "cache config dir is empty" else ""

def LocalLog.CheckValid (this : LocalLog) : String :=
  if this.Dir.length = 0 then "log config dir is empty"
  else if this.Rotation.length = 0 then "log rotation dir is empty"
  else if this.MaxAge < 1 then "log maxAge invalid"
  else if this.Level.length = 0 then "log level is empty"
  else ""

def LocalConf.CheckValid (this : LocalConf) : String :=
  if this.AppName.length = 0 then "local config AppName is empty"
  else if this.Timeout < 1 then "local config Timeout invalid"
  else if this.BeatInterval < 1 then "local config BeatInterval invalid"
  else match this.CacheConfig, this.Authorization, this.LogConfig with
    | none, _, _ => "local cache config is nil"
    | some _, none, _ => "local authorization config is nil"
    | some _, some _, none => "local log config is nil"
    | some cache, some _, some log =>
      let errMsg := cache.CheckValid
      if errMsg.length > 0 then errMsg
      else
        let errMsg := log.CheckValid
        if errMsg.length > 0 then errMsg else ""

def ServerEndpoint.CheckValid (this : ServerEndpoint) : String :=
  if this.IP.length = 0 then "server IP is empty"
  else if this.Port < 1 ∨ this.Port > 65535 then "server Port invalid"
  else if this.Scheme.length = 0 then "server Scheme is empty"
  else ""

def SubscribeVar.CheckValid (this : SubscribeVar) : String :=
  if this.Group.length = 0 then "subscribe var group is empty"
  else if this.ID.length = 0 then "subscribe var id is empty"
  else if this.HandlerName.length = 0 then "subscribe var handler is empty"
  else ""

/-- The loops of `ConfRoot.CheckValid`: the first non-empty message, if any. -/
def firstErrMsg {α : Type} (check : α → String) : List α → String
  | [] => ""
  | x :: rest =>
    let errMsg := check x
    if errMsg.length > 0 then errMsg else firstErrMsg check rest

def ConfRoot.CheckValid (this : ConfRoot) : String :=
  match this.Local with
  | none => "local config is nil"
  | some loc =>
    let errMsg := loc.CheckValid
    if errMsg.length > 0 then errMsg
    else if this.Endpoints.length = 0 then "Endpoint config is empty"
    else
      let errMsg := firstErrMsg ServerEndpoint.CheckValid this.Endpoints
      if errMsg.length > 0 then errMsg
      else if this.SubscribeVars.length = 0 then "Subscribe Vars is empty"
      else
        let errMsg := firstErrMsg SubscribeVar.CheckValid this.SubscribeVars
        if errMsg.length > 0 then errMsg else ""

/-- Whether the group or the id holds a `*`: `strings.Index(s, "*") >= 0` on each. -/
def SubscribeVar.CheckBlur (this : SubscribeVar) : Bool :=
  if this.Group.data.contains '*' then true
  else if this.ID.data.contains '*' then true
  else false

/-! ## The Nacos client -/

/-- Fields of `vo.ConfigParam` that the repository sets. `OnChange` is the
closure handed to `ListenConfig`; it is identified by the handler `h` it
captures (`none` when no closure is passed). -/
structure ConfigParam where
  DataId : String
  Group : String
  Content : String
  OnChange : Option (Option HandlerFn)
  deriving DecidableEq, Repr

structure SearchConfigParam where
  Search : String
  DataId : String
  Group : String
  PageNo : Int
  PageSize : Int
  deriving DecidableEq, Repr

/-- Fields of `model.ConfigItem` that the repository reads. -/
structure ConfigItem where
  DataId : String
  Group : String
  Content : String
  deriving DecidableEq, Repr

/-- Fields of `model.ConfigPage` that the repository reads. -/
structure ConfigPage where
  PageItems : List ConfigItem
  deriving DecidableEq, Repr

/-- One observable interaction: a call to the client with its result, or an
invocation of a user handler. -/
inductive Event where
  | getConfig (param : ConfigParam) (content : String) (err : Option GoError)
  | listenConfig (param : ConfigParam) (err : Option GoError)
  | searchConfig (param : SearchConfigParam) (page : Option ConfigPage) (err : Option GoError)
  | publishConfig (param : ConfigParam) (ok : Bool) (err : Option GoError)
  | handler (h : HandlerFn) (group dataId data : String)
  deriving DecidableEq, Repr

/-- The client, `config_client.IConfigClient`: each method answers from the
history of interactions so far and its argument. A nil page with a nil error
from `SearchConfig` is a nil dereference in `subscribeOnline`. -/
structure ConfigClient where
  GetConfig : List Event → ConfigParam → String × Option GoError
  ListenConfig : List Event → ConfigParam → Option GoError
  SearchConfig : List Event → SearchConfigParam → Option ConfigPage × Option GoError
  PublishConfig : List Event → ConfigParam → Bool × Option GoError

/-! ## repo.go -/

/-- The receiver `Repo`; the lock is left out, every method body below is one
atomic step where it holds the lock. -/
structure Repo where
  config : Option ConfRoot
  localDict : String → Option String
  configClient : Option ConfigClient

/-- How a Go call ends: it returns, it dies on a nil dereference, or the
model runs out of fuel (an unbounded `for` loop). -/
inductive Outcome (α : Type) where
  | ret (a : α)
  | crash
  | outOfFuel

/-- The cache key `fmt.Sprintf("%s::%s", group, id)`. -/
def formatVarKey (group id : String) : String :=
  group ++ "::" ++ id

def Repo.addVar (this : Repo) (k content : String) : Repo :=
  { this with localDict := fun x => if x = k then some content else this.localDict x }

def Repo.checkVarExist (this : Repo) (group id : String) : Bool :=
  match this.localDict (formatVarKey group id) with
  | some _ => true
  | none => false

def Repo.getVar (this : Repo) (gourp id : String) : String :=
  match this.localDict (formatVarKey gourp id) with
  | none => ""
  | some v => v

/-- Function `findHandlerByName`; `equalFold` stands for `strings.EqualFold`. -/
def findHandlerByName (equalFold : String → String → Bool)
    (handlers : List MatchVarHandler) (name : String) : Option HandlerFn :=
  match handlers with
  | [] => none
  | m :: rest =>
    if equalFold m.Name name then m.Handler
    else findHandlerByName equalFold rest name

/-- The loop of `fillHandler` over `conf.SubscribeVars`, which it updates in
place: the variables as they are left, and the error. -/
def fillHandlerLoop (equalFold : String → String → Bool) (handlers : List MatchVarHandler) :
    List SubscribeVar → List SubscribeVar × Option GoError
  | [] => ([], none)
  | subVar :: rest =>
    match findHandlerByName equalFold handlers subVar.HandlerName with
    | none =>
      (subVar :: rest,
        some (.errorString ("cannot find handler by name:" ++ subVar.HandlerName)))
    | some handler =>
      let r := fillHandlerLoop equalFold handlers rest
      ({ subVar with Handler := some handler } :: r.1, r.2)

def fillHandler (equalFold : String → String → Bool) (conf : ConfRoot)
    (handlers : List MatchVarHandler) : ConfRoot × Option GoError :=
  let r := fillHandlerLoop equalFold handlers conf.SubscribeVars
  ({ conf with SubscribeVars := r.1 }, r.2)

/-- The fields of `constant.ClientConfig` that `initParam` sets. -/
structure ClientConfig where
  AppName : String
  NamespaceId : String
  TimeoutMs : Nat
  BeatInterval : Int
  UpdateThreadNum : Int
  NotLoadCacheAtStart : Bool
  CacheDir : String
  Username : String
  Password : String
  LogDir : String
  LogLevel : String
  LogMaxAge : Int
  deriving DecidableEq, Repr

structure ServerConfig where
  IpAddr : String
  ContextPath : String
  Port : Nat
  Scheme : String
  deriving DecidableEq, Repr

/-- What the repository takes from outside its own code. -/
structure Externals where
  /-- Method `conf.FillWithXml`: `xml.Unmarshal` and the environment override. -/
  FillWithXml : String → Except GoError ConfRoot
  /-- Function `strings.EqualFold`. -/
  EqualFold : String → String → Bool
  /-- Value of `runtime.GOMAXPROCS(0)`. -/
  GOMAXPROCS : Int
  /-- Function `filepath.Abs`. -/
  Abs : String → String
  /-- Function `clients.NewConfigClient`. -/
  NewConfigClient : ClientConfig → List ServerConfig → Except GoError ConfigClient

/-- Conversion `uint64(x)` of a Go `int`. -/
def toUint64 (x : Int) : Nat := (x % 2 ^ 64).toNat

def Repo.initParam (ext : Externals) (this : Repo) : Outcome (Option GoError × Repo) :=
  match this.config with
  | none => .ret (some (.errorString "conf is nil"), this)
  | some conf =>
    match conf.Local with
    | none => .crash
    | some loc =>
      match loc.CacheConfig, loc.LogConfig, loc.Authorization with
      | some cache, some log, some auth =>
        let procs := if ext.GOMAXPROCS > 4 then 4 else ext.GOMAXPROCS
        let clientConfig : ClientConfig :=
          { AppName := loc.AppName
            NamespaceId := loc.NameSpaceID
            TimeoutMs := if loc.OfflineMode then 1 else toUint64 loc.Timeout
            BeatInterval := if loc.OfflineMode then 1000 * 3600 * 5 else loc.BeatInterval
            UpdateThreadNum := procs
            NotLoadCacheAtStart := cache.NotLoadAtStart
            CacheDir := ext.Abs cache.Dir
            Username := auth.UserName
            Password := auth.Password
            LogDir := ext.Abs log.Dir
            LogLevel := log.Level
            LogMaxAge := log.MaxAge }
        let serverConfigs := conf.Endpoints.map fun item =>
          { IpAddr := item.IP, ContextPath := item.Context, Port := toUint64 item.Port,
            Scheme := item.Scheme : ServerConfig }
        match ext.NewConfigClient clientConfig serverConfigs with
        | .error err => .ret (some err, this)
        | .ok configClient => .ret (none, { this with configClient := some configClient })
      | _, _, _ => .crash

/-- Method `InitFromReader`. The reader is given by what reading it to the end
yields: its content, or the read error. -/
def Repo.InitFromReader (ext : Externals) (this : Repo) (srcReader : Except GoError String)
    (matchHandlers : List MatchVarHandler) : Outcome (Option GoError × Repo) :=
  match srcReader with
  | .error err => .ret (some err, this)
  | .ok buff =>
    match ext.FillWithXml buff with
    | .error err => .ret (some err, this)
    | .ok conf =>
      let errMsg := conf.CheckValid
      if errMsg.length > 0 then
        .ret (some (.errorString ("配置格式错误:" ++ errMsg)), this)
      else
        -- err = fillHandler(conf, matchHandlers): err is not read again
        let filled := fillHandler ext.EqualFold conf matchHandlers
        let this := { this with localDict := fun _ => none, config := some filled.1 }
        this.initParam ext

/-- Method `Publish`, from the interaction history `trace`: the returned error and
the history afterwards. -/
def Repo.Publish (this : Repo) (trace : List Event) (group id content : String) :
    Outcome (Option GoError × List Event) :=
  match this.configClient with
  | none => .ret (some (.errorString "configClient is nil"), trace)
  | some client =>
    match this.config with
    | none => .crash
    | some conf =>
      match conf.Local with
      | none => .crash
      | some loc =>
        if loc.OfflineMode then
          .ret (some (.errorString "config is offline mode"), trace)
        else
          let param : ConfigParam :=
            { DataId := id, Group := group, Content := content, OnChange := none }
          let r := client.PublishConfig trace param
          .ret (r.2, trace ++ [Event.publishConfig param r.1 r.2])

/-- A handler call `h(group, dataId, data)` behind its guard `h != nil`. -/
def callHandler (h : Option HandlerFn) (group dataId data : String) (trace : List Event) :
    List Event :=
  match h with
  | some f => trace ++ [Event.handler f group dataId data]
  | none => trace

/-- The error `fmt.Errorf(what + ":group[%s] dataID[%s]; %w", group, id, err)`. -/
def wrapVarError (what group id : String) (err : GoError) : GoError :=
  .wrapError (what ++ ":group[" ++ group ++ "] dataID[" ++ id ++ "]; " ++ err.Error) err

/-- The loop of `subscribeOffline` over `this.config.SubscribeVars`. -/
def subscribeOfflineLoop (client : ConfigClient) :
    List SubscribeVar → Repo → List Event → Option GoError × Repo × List Event
  | [], this, trace => (none, this, trace)
  | svar :: rest, this, trace =>
    if svar.CheckBlur then subscribeOfflineLoop client rest this trace
    else
      let param : ConfigParam :=
        { DataId := svar.ID, Group := svar.Group, Content := "", OnChange := none }
      let r := client.GetConfig trace param
      let trace := trace ++ [Event.getConfig param r.1 r.2]
      match r.2 with
      | some err => (some (wrapVarError "get config error" svar.Group svar.ID err), this, trace)
      | none =>
        let k := formatVarKey svar.Group svar.ID
        let this := this.addVar k r.1
        let trace := callHandler svar.Handler svar.Group svar.ID r.1 trace
        subscribeOfflineLoop client rest this trace

/-- Method `subscribeOffline`, from the interaction history `trace`. With a nil
client the first `GetConfig` call is a nil dereference, and there is such a
call exactly when some variable is not a pattern. -/
def Repo.subscribeOffline (this : Repo) (trace : List Event) :
    Outcome (Option GoError × Repo × List Event) :=
  match this.config with
  | none => .crash
  | some conf =>
    match this.configClient with
    | some client => .ret (subscribeOfflineLoop client conf.SubscribeVars this trace)
    | none =>
      if conf.SubscribeVars.all SubscribeVar.CheckBlur then .ret (none, this, trace)
      else .crash

/-- An `OnChange` invocation that has stored its value under `k` and has not
yet appended `k` to `list`; `called` tells whether its handler step is done. -/
structure Pending where
  k : String
  h : Option HandlerFn
  group : String
  dataId : String
  data : String
  called : Bool
  deriving DecidableEq, Repr

/-- An atomic step of the client threads that run `OnChange` closures.
`fire reg ..` starts the closure of the `reg`-th `ListenConfig` call of the run
with the given arguments and does its `addVar`; `resume i` lets the `i`-th
started invocation do its next step: the handler call, then the append to
`list`. -/
inductive EnvAct where
  | fire (reg : Nat) (namespace_ group dataId data : String)
  | resume (i : Nat)
  deriving DecidableEq, Repr

/-- State of one `subscribeOnline` run: the receiver, the interaction
history, the local `list` shared with the closures, the closures handed to the
client so far (each by the handler it captures), the started invocations, and
the schedule still to come. -/
structure Run where
  repo : Repo
  trace : List Event
  list : List String
  regs : List (Option HandlerFn)
  inflight : List Pending
  sched : List (List EnvAct)

def Run.envAct (s : Run) : EnvAct → Run
  | .fire reg _ group dataId data =>
    match s.regs.get? reg with
    | none => s
    | some h =>
      let k := formatVarKey group dataId
      { s with
        repo := s.repo.addVar k data
        inflight := s.inflight ++
          [{ k := k, h := h, group := group, dataId := dataId, data := data, called := false }] }
  | .resume i =>
    match s.inflight.get? i with
    | none => s
    | some p =>
      if p.called then
        { s with list := s.list ++ [p.k], inflight := s.inflight.eraseIdx i }
      else
        { s with
          trace := callHandler p.h p.group p.dataId p.data s.trace
          inflight := s.inflight.set i { p with called := true } }

/-- The environment actions scheduled before the next atomic step of the run. -/
def Run.envSlot (s : Run) : Run :=
  match s.sched with
  | [] => s
  | acts :: rest => acts.foldl Run.envAct { s with sched := rest }

/-- Library function `arrayUtil.ContainsString`: the index of the first
occurrence of `str` in `arr`, or -1. -/
def ContainsString (arr : List String) (str : String) : Int :=
  if str ∈ arr then (arr.indexOf str : Int) else -1

/-- The local map `dict` of `subscribeOnline`, in insertion order. -/
abbrev Dict := List (String × SubscribeVar)

/-- The call `this.configClient.ListenConfig` of `subscribeOnline`, the same
in both branches: it is made for `svar.ID` and `svar.Group`, with a closure
that captures `svar.Handler`. -/
def Run.listen (client : ConfigClient) (svar : SubscribeVar) (s : Run) : Option GoError × Run :=
  let s := s.envSlot
  let param : ConfigParam :=
    { DataId := svar.ID, Group := svar.Group, Content := "", OnChange := some svar.Handler }
  let err := client.ListenConfig s.trace param
  (err, { s with
    trace := s.trace ++ [Event.listenConfig param err]
    regs := s.regs ++ [svar.Handler] })

/-- The paging loop of `subscribeOnline` for a pattern variable. -/
def searchLoop (client : ConfigClient) (svar : SubscribeVar) :
    Nat → Int → List ConfigItem → Run → Outcome (Option GoError × List ConfigItem × Run)
  | 0, _, _, _ => .outOfFuel
  | fuel + 1, pageIndex, vars, s =>
    let s := s.envSlot
    let param : SearchConfigParam :=
      { Search := "blur", DataId := svar.ID, Group := svar.Group, PageNo := pageIndex,
        PageSize := 1000 }
    let r := client.SearchConfig s.trace param
    let s := { s with trace := s.trace ++ [Event.searchConfig param r.1 r.2] }
    match r.2, r.1 with
    | some err, _ => .ret (some err, vars, s)
    | none, none => .crash
    | none, some configPage =>
      let vars := vars ++ configPage.PageItems
      if configPage.PageItems.length < 1000 then .ret (none, vars, s)
      else searchLoop client svar fuel (pageIndex + 1) vars s

/-- The loop of `subscribeOnline` over the items found for a pattern variable. -/
def listenItems (client : ConfigClient) (svar : SubscribeVar) :
    List ConfigItem → Dict → Run → Option GoError × Dict × Run
  | [], dict, s => (none, dict, s)
  | item :: rest, dict, s =>
    let k := formatVarKey item.Group item.DataId
    match dict.lookup k with
    | some _ => listenItems client svar rest dict s
    | none =>
      let dict := dict ++ [(k, svar)]
      let r := s.listen client svar
      match r.1 with
      | some err => (some (wrapVarError "listen config error" svar.Group svar.ID err), dict, r.2)
      | none => listenItems client svar rest dict r.2

/-- One iteration of the first loop of `subscribeOnline`. -/
def subscribeVar (client : ConfigClient) (fuel : Nat) (svar : SubscribeVar) (dict : Dict)
    (s : Run) : Outcome (Option GoError × Dict × Run) :=
  if !svar.CheckBlur then
    let k := formatVarKey svar.Group svar.ID
    match dict.lookup k with
    | some _ => .ret (none, dict, s)
    | none =>
      let dict := dict ++ [(k, svar)]
      let r := s.listen client svar
      match r.1 with
      | some err =>
        .ret (some (wrapVarError "listen config error" svar.Group svar.ID err), dict, r.2)
      | none => .ret (none, dict, r.2)
  else
    match searchLoop client svar fuel 1 [] s with
    | .crash => .crash
    | .outOfFuel => .outOfFuel
    | .ret (some err, _, s) => .ret (some err, dict, s)
    | .ret (none, vars, s) => .ret (listenItems client svar vars dict s)

/-- The first loop of `subscribeOnline`, over `this.config.SubscribeVars`. -/
def subscribeVars (client : ConfigClient) (fuel : Nat) :
    List SubscribeVar → Dict → Run → Outcome (Option GoError × Dict × Run)
  | [], dict, s => .ret (none, dict, s)
  | svar :: rest, dict, s =>
    match subscribeVar client fuel svar dict s with
    | .crash => .crash
    | .outOfFuel => .outOfFuel
    | .ret (some err, dict, s) => .ret (some err, dict, s)
    | .ret (none, dict, s) => subscribeVars client fuel rest dict s

/-- The second loop of `subscribeOnline`, over `dict` in the order given. -/
def drainLoop (client : ConfigClient) : List (String × SubscribeVar) → Run → Option GoError × Run
  | [], s => (none, s)
  | (k, v) :: rest, s =>
    let s := s.envSlot
    if ContainsString s.list k ≥ 0 then drainLoop client rest s
    else
      let s := s.envSlot
      let param : ConfigParam :=
        { DataId := v.ID, Group := v.Group, Content := "", OnChange := none }
      let r := client.GetConfig s.trace param
      let s := { s with trace := s.trace ++ [Event.getConfig param r.1 r.2] }
      match r.2 with
      | some err => (some (wrapVarError "get config error" v.Group v.ID err), s)
      | none =>
        let s := s.envSlot
        let s := { s with repo := s.repo.addVar k r.1 }
        let s := s.envSlot
        let s := { s with trace := callHandler v.Handler v.Group v.ID r.1 s.trace }
        drainLoop client rest s

/-- Method `subscribeOnline`, from the interaction history `trace`, with the
map iteration order `rangeOrder`, the schedule `sched` of the client threads
and `fuel` for each paging loop. With a nil client the first client call is a
nil dereference, and the first variable always leads to one. The dictionary is
returned with the final state; a last slot takes the environment actions that
happen after the last step and before the return. -/
def Repo.subscribeOnline (this : Repo) (trace : List Event)
    (rangeOrder : Dict → Dict) (sched : List (List EnvAct)) (fuel : Nat) :
    Outcome (Option GoError × Dict × Run) :=
  match this.config with
  | none => .crash
  | some conf =>
    let s : Run :=
      { repo := this, trace := trace, list := [], regs := [], inflight := [], sched := sched }
    match this.configClient with
    | none =>
      match conf.SubscribeVars with
      | [] => .ret (none, [], s.envSlot)
      | _ :: _ => .crash
    | some client =>
      match subscribeVars client fuel conf.SubscribeVars [] s with
      | .crash => .crash
      | .outOfFuel => .outOfFuel
      | .ret (some err, dict, s) => .ret (some err, dict, s)
      | .ret (none, dict, s) =>
        let r := drainLoop client (rangeOrder dict) s
        .ret (r.1, dict, r.2.envSlot)

/-! ## Concrete inputs -/

def exampleLocal (offline : Bool) : LocalConf :=
  { AppName := "app", NameSpaceID := "", Timeout := 1000, BeatInterval := 5000,
    CacheConfig := some { Dir := "nacos/cache", NotLoadAtStart := false },
    Authorization := some { UserName := "", Password := "" },
    LogConfig := some { Dir := "nacos/log", Rotation := "24h", MaxAge := 3, Level := "info" },
    OfflineMode := offline }

def exampleConf (offline : Bool) (vars : List SubscribeVar) : ConfRoot :=
  { EnvDefine := { NacosUrls := "", NacosNamespace := "" },
    Endpoints := [{ IP := "127.0.0.1", Port := 8848, Context := "/nacos", Scheme := "http" }],
    Local := some (exampleLocal offline),
    SubscribeVars := vars }

/-- A client that answers every fetch of `(group, id)` with `"v:" ++ group ++ "/" ++ id`,
accepts every listener and every publication, and answers the search for page
`p` with `pages p` and `searchErr`. -/
def stubClient (pages : Int → List ConfigItem) (searchErr : Option GoError) : ConfigClient :=
  { GetConfig := fun _ p => ("v:" ++ p.Group ++ "/" ++ p.DataId, none)
    ListenConfig := fun _ _ => none
    SearchConfig := fun _ p => (some { PageItems := pages p.PageNo }, searchErr)
    PublishConfig := fun _ _ => (true, none) }

def exampleRepo (offline : Bool) (vars : List SubscribeVar) (client : ConfigClient) : Repo :=
  { config := some (exampleConf offline vars), localDict := fun _ => none,
    configClient := some client }

def emptyRepo : Repo :=
  { config := none, localDict := fun _ => none, configClient := none }

/-- Externals under which the configuration `conf` is what the reader parses
to and creating the client succeeds. -/
def exampleExternals (conf : ConfRoot) (client : ConfigClient) : Externals :=
  { FillWithXml := fun _ => .ok conf
    EqualFold := fun a b => a.toLower == b.toLower
    GOMAXPROCS := 8
    Abs := fun p => "/srv/" ++ p
    NewConfigClient := fun _ _ => .ok client }

def h1 : HandlerFn := { id := 1 }

def h2 : HandlerFn := { id := 2 }

def h3 : HandlerFn := { id := 3 }

/-- One match `(G1, D1)` on the first page, nothing after. -/
def onePage (p : Int) : List ConfigItem :=
  if p = 1 then [{ DataId := "D1", Group := "G1", Content := "" }] else []

/-! ## Reading the history -/

/-- Whether an event is a call to the client (and not a handler invocation). -/
def Event.isCall : Event → Bool
  | .handler .. => false
  | _ => true

/-- The event records what `client` answers to the call after `history`. -/
def Event.answers (client : ConfigClient) (history : List Event) : Event → Prop
  | .getConfig param content err => client.GetConfig history param = (content, err)
  | .listenConfig param err => client.ListenConfig history param = err
  | .searchConfig param page err => client.SearchConfig history param = (page, err)
  | .publishConfig param ok err => client.PublishConfig history param = (ok, err)
  | .handler .. => True

/-- Every call among `ext`, a continuation of `history`, records the answer
that `client` gives to it after all that came before. -/
def Logged (client : ConfigClient) : List Event → List Event → Prop
  | _, [] => True
  | history, e :: ext => e.answers client history ∧ Logged client (history ++ [e]) ext

/-- The parameter of a fetch of `(group, id)`. -/
def fetchParam (group id : String) : ConfigParam :=
  { DataId := id, Group := group, Content := "", OnChange := none }

/-- A variable is exact when neither its group nor its id holds the character `*`. -/
def SubscribeVar.IsExact (v : SubscribeVar) : Prop :=
  '*' ∉ v.Group.data ∧ '*' ∉ v.ID.data

instance (v : SubscribeVar) : Decidable v.IsExact := by
  unfold SubscribeVar.IsExact
  infer_instance

/-- The exact variables of a list, in declaration order. -/
def exactVars (svars : List SubscribeVar) : List SubscribeVar :=
  svars.filter fun v => decide v.IsExact

/-- What an offline run owes an exact variable whose fetch returns the
content `vc.2`: one fetch with the group and id of the variable, then, when a
handler is bound, one call of it with the group, the id and the content. -/
def offlineEvents (vc : SubscribeVar × String) : List Event :=
  match vc.1.Handler with
  | some h =>
    [Event.getConfig { DataId := vc.1.ID, Group := vc.1.Group, Content := "", OnChange := none }
        vc.2 none,
      Event.handler h vc.1.Group vc.1.ID vc.2]
  | none =>
    [Event.getConfig { DataId := vc.1.ID, Group := vc.1.Group, Content := "", OnChange := none }
        vc.2 none]

/-- The cache after the content `vc.2` is stored for the pair of the variable
`vc.1`: the entry under the group, two colons and the id is the content, every
other entry is as before. -/
def offlineCache (d : String → Option String) (vc : SubscribeVar × String) :
    String → Option String :=
  fun x => if x = vc.1.Group ++ "::" ++ vc.1.ID then some vc.2 else d x

def Event.isSearch : Event → Bool
  | .searchConfig .. => true
  | _ => false

def Event.isListen : Event → Bool
  | .listenConfig .. => true
  | _ => false

/-- An offline run: one exact variable, then one pattern variable. -/
def offlineExample : Repo :=
  exampleRepo true [⟨"G1", "D1", "h1", some h1⟩, ⟨"G*", "D2", "h2", some h2⟩]
    (stubClient onePage none)

/-- The receiver after the run of `offlineExample`: one entry, for `(G1, D1)`. -/
def offlineExpected : Repo :=
  { config := some (exampleConf true
      [⟨"G1", "D1", "h1", some h1⟩, ⟨"G*", "D2", "h2", some h2⟩])
    localDict := fun x => if x = "G1::D1" then some "v:G1/D1" else none
    configClient := some (stubClient onePage none) }

/-! ## Invariants of an online run -/

/-- Every key of the cache of `s` is a key of the cache of `s'`. -/
def Run.KeysLe (s s' : Run) : Prop :=
  ∀ k, (s.repo.localDict k).isSome = true → (s'.repo.localDict k).isSome = true

/-- Every key in `list`, and the key of every started `OnChange` invocation,
is a key of the cache. -/
def Run.Delivered (s : Run) : Prop :=
  (∀ k ∈ s.list, (s.repo.localDict k).isSome = true) ∧
    ∀ p ∈ s.inflight, (s.repo.localDict p.k).isSome = true

/-- State `s'` comes after `s`: the cache has lost no key, the delivered keys
are still cached, and the history has grown by events whose client calls are
exactly `calls`, each recording the answer of `client`. -/
def Run.Grows (client : ConfigClient) (s s' : Run) (calls : List Event) : Prop :=
  s.KeysLe s' ∧ (s.Delivered → s'.Delivered) ∧
    ∃ ext, s'.trace = s.trace ++ ext ∧ ext.filter Event.isCall = calls ∧
      Logged client s.trace ext

/-- The parameter of the search for page `p` of a pattern variable. -/
def searchParam (svar : SubscribeVar) (p : Int) : SearchConfigParam :=
  { Search := "blur", DataId := svar.ID, Group := svar.Group, PageNo := p, PageSize := 1000 }

/-- The searches that return `pages`, numbered from `p` on. -/
def searchEvents (svar : SubscribeVar) : Int → List ConfigPage → List Event
  | _, [] => []
  | p, page :: rest =>
    Event.searchConfig (searchParam svar p) (some page) none :: searchEvents svar (p + 1) rest

/-- The parameter of the listener registration that `subscribeOnline` makes
for a variable. -/
def listenParam (svar : SubscribeVar) : ConfigParam :=
  { DataId := svar.ID, Group := svar.Group, Content := "", OnChange := some svar.Handler }

/-- The state of the paging loop once the search for page `pageIndex` is logged. -/
def Run.afterSearch (client : ConfigClient) (svar : SubscribeVar) (pageIndex : Int) (s : Run) :
    Run :=
  { s.envSlot with
    trace := s.envSlot.trace ++
      [Event.searchConfig (searchParam svar pageIndex)
        (client.SearchConfig s.envSlot.trace (searchParam svar pageIndex)).1
        (client.SearchConfig s.envSlot.trace (searchParam svar pageIndex)).2] }

/-- An online run: one exact variable, then one pattern variable. -/
def onlineExample : Repo :=
  exampleRepo false [⟨"G1", "D1", "h1", some h1⟩, ⟨"G*", "D1", "h2", some h2⟩]
    (stubClient onePage none)

/-- A schedule for `onlineExample`: before the search the client fires the
only listener registered so far with a change of `(G1, D1)`; that invocation
calls its handler before the drain looks at `list` and marks its key before
the final return. -/
def onlineExampleSched : List (List EnvAct) :=
  [[], [.fire 0 "public" "G1" "D1" "fresh"], [.resume 0], [.resume 0]]

/-- A state with nothing in it. -/
def Run.blank : Run :=
  { repo := emptyRepo, trace := [], list := [], regs := [], inflight := [], sched := [] }

/-- What is returned by a run that returns. -/
def Outcome.returned {α : Type} (fallback : α) : Outcome α → α
  | .ret a => a
  | _ => fallback

/-- What the online run of `onlineExample` under `onlineExampleSched` returns. -/
def onlineExampleResult : Option GoError × Dict × Run :=
  (onlineExample.subscribeOnline [] id onlineExampleSched 2).returned (none, [], Run.blank)

/-- A full page of 1000 items, then a page of one item, nothing after. -/
def fullThenOne (p : Int) : List ConfigItem :=
  if p = 1 then List.replicate 1000 { DataId := "D0", Group := "G0", Content := "" }
  else if p = 2 then [{ DataId := "D1", Group := "G1", Content := "" }]
  else []

/-- No match on any page. -/
def noMatch (_ : Int) : List ConfigItem := []

/-! ## Theorems -/

/-- C1: with a client set, `Publish` in offline mode returns the offline error
and makes no call; in online mode it makes exactly one `PublishConfig` call, for
the given group, id and content, and returns the error of that call. -/
theorem Publish_gating (this : Repo) (client : ConfigClient) (conf : ConfRoot) (loc : LocalConf)
    (trace : List Event) (group id content : String)
    (hclient : this.configClient = some client) (hconf : this.config = some conf)
    (hloc : conf.Local = some loc) :
    (loc.OfflineMode = true →
      this.Publish trace group id content =
        .ret (some (.errorString "config is offline mode"), trace)) ∧
    (loc.OfflineMode = false →
      this.Publish trace group id content =
        .ret ((client.PublishConfig trace
            { DataId := id, Group := group, Content := content, OnChange := none }).2,
          trace ++ [Event.publishConfig
            { DataId := id, Group := group, Content := content, OnChange := none }
            (client.PublishConfig trace
              { DataId := id, Group := group, Content := content, OnChange := none }).1
            (client.PublishConfig trace
              { DataId := id, Group := group, Content := content, OnChange := none }).2])) := by
  constructor <;> intro h <;> simp [Repo.Publish, hclient, hconf, hloc, h]

theorem Publish_gating_witness :
    (exampleRepo false [] (stubClient onePage none)).configClient =
        some (stubClient onePage none) ∧
      (exampleRepo false [] (stubClient onePage none)).config = some (exampleConf false []) ∧
      (exampleConf false []).Local = some (exampleLocal false) ∧
      (exampleRepo false [] (stubClient onePage none)).Publish [] "G1" "D1" "text" =
        .ret (none, [Event.publishConfig
          { DataId := "D1", Group := "G1", Content := "text", OnChange := none } true none]) :=
  ⟨rfl, rfl, rfl,
    (Publish_gating (exampleRepo false [] (stubClient onePage none)) (stubClient onePage none)
      (exampleConf false []) (exampleLocal false) [] "G1" "D1" "text" rfl rfl rfl).2 rfl⟩

/-- C2 at a failing input: the configuration is valid, its only variable names
a handler that is not registered, `fillHandler` reports this, and
`InitFromReader` still returns no error and leaves the variable unbound. -/
theorem InitFromReader_drops_fillHandler_error :
    (exampleConf false [⟨"G1", "D1", "configHandler", none⟩]).CheckValid = "" ∧
    (fillHandler (fun a b => a.toLower == b.toLower)
      (exampleConf false [⟨"G1", "D1", "configHandler", none⟩]) []).2 =
      some (.errorString "cannot find handler by name:configHandler") ∧
    ∃ r, Repo.InitFromReader
        (exampleExternals (exampleConf false [⟨"G1", "D1", "configHandler", none⟩])
          (stubClient onePage none))
        emptyRepo (.ok "<xml/>") [] = .ret (none, r) ∧
      r.config.map (fun c => c.SubscribeVars.map SubscribeVar.Handler) = some [none] :=
  ⟨by decide, by decide, _, rfl, rfl⟩

/-- C3 at a failing input: the second and third variable both resolve to the
target `("a", ":b")`, whose key is also the key of the first variable
`("a:", "b")`. The run returns success with a single registration, made for the
first variable with its handler; no listener is registered for the shared
target and the owner recorded under its key is the first variable. -/
theorem subscribeOnline_key_collision_steals_target :
    ∃ dict s,
      (exampleRepo false
        [⟨"a:", "b", "h1", some h1⟩, ⟨"a", ":b", "h2", some h2⟩, ⟨"a", ":b", "h3", some h3⟩]
        (stubClient onePage none)).subscribeOnline [] id [] 1 = .ret (none, dict, s) ∧
      s.trace.filter Event.isListen =
        [Event.listenConfig (listenParam ⟨"a:", "b", "h1", some h1⟩) none] ∧
      dict.lookup (formatVarKey "a" ":b") = some ⟨"a:", "b", "h1", some h1⟩ :=
  ⟨_, _, rfl, by decide, by decide⟩

/-- C7 at a failing input: the pattern variable `("G*", "D1")` resolves to the
target `("G1", "D1")`; the one listener of the run is registered with group
`"G*"`, not `"G1"`. -/
theorem subscribeOnline_pattern_listens_on_pattern :
    ∃ dict s,
      (exampleRepo false [⟨"G*", "D1", "h1", some h1⟩]
        (stubClient onePage none)).subscribeOnline [] id [] 1 = .ret (none, dict, s) ∧
      dict.map Prod.fst = [formatVarKey "G1" "D1"] ∧
      s.trace.filter Event.isListen =
        [Event.listenConfig
          { DataId := "D1", Group := "G*", Content := "", OnChange := some (some h1) } none] :=
  ⟨_, _, rfl, by decide, by decide⟩

/-- C8 at a failing input: the pattern variable `("G1", "D*")` resolves to the
target `("G1", "D1")`; with no callback fired, the drain fetches `("G1", "D*")`,
stores what it got under the key of `("G1", "D1")` and calls the handler with
`("G1", "D*")`. There is no fetch of `("G1", "D1")`. -/
theorem subscribeOnline_drain_fetches_pattern :
    ∃ dict s,
      (exampleRepo false [⟨"G1", "D*", "h1", some h1⟩]
        (stubClient onePage none)).subscribeOnline [] id [] 1 = .ret (none, dict, s) ∧
      dict.map Prod.fst = [formatVarKey "G1" "D1"] ∧
      s.trace =
        [Event.searchConfig (searchParam ⟨"G1", "D*", "h1", some h1⟩ 1)
            (some { PageItems := [{ DataId := "D1", Group := "G1", Content := "" }] }) none,
          Event.listenConfig (listenParam ⟨"G1", "D*", "h1", some h1⟩) none,
          Event.getConfig (fetchParam "G1" "D*") "v:G1/D*" none,
          Event.handler h1 "G1" "D*" "v:G1/D*"] ∧
      s.repo.getVar "G1" "D1" = "v:G1/D*" :=
  ⟨_, _, rfl, by decide, by decide, by decide⟩

/-- C9 at a failing input: the search for the pattern variable `("G*", "D1")`
fails with the error `boom`; the run returns that very error, which wraps
nothing and whose message names neither the group nor the id. -/
theorem subscribeOnline_search_error_unwrapped :
    ∃ dict s,
      (exampleRepo false [⟨"G*", "D1", "h1", some h1⟩]
        (stubClient onePage (some (.errorString "boom")))).subscribeOnline [] id [] 1 =
        .ret (some (.errorString "boom"), dict, s) ∧
      (GoError.errorString "boom").Unwrap = none ∧
      ¬ strContains (GoError.errorString "boom").Error "G*" ∧
      ¬ strContains (GoError.errorString "boom").Error "D1" :=
  ⟨_, _, rfl, rfl, by decide, by decide⟩

/-- C10 at a failing input: the distinct pairs `("a:", "b")` and `("a", ":b")`
have the same key, so a write for the first makes the second exist and gives
it the value written. -/
theorem formatVarKey_collision :
    ("a:", "b") ≠ ("a", ":b") ∧
    formatVarKey "a:" "b" = formatVarKey "a" ":b" ∧
    emptyRepo.checkVarExist "a" ":b" = false ∧
    (emptyRepo.addVar (formatVarKey "a:" "b") "v").checkVarExist "a" ":b" = true ∧
    (emptyRepo.addVar (formatVarKey "a:" "b") "v").getVar "a" ":b" = "v" :=
  ⟨by decide, by decide, by decide, by decide, by decide⟩

theorem callHandler_eq_append (h : Option HandlerFn) (g d c : String) (t : List Event) :
    callHandler h g d c t = t ++ callHandler h g d c [] := by
  cases h <;> simp [callHandler]

theorem Logged_append (client : ConfigClient) (a b : List Event) :
    ∀ history, Logged client history (a ++ b) ↔
      Logged client history a ∧ Logged client (history ++ a) b := by
  induction a with
  | nil => intro history; simp [Logged]
  | cons e a ih =>
    intro history
    simp [Logged, ih, and_assoc]

theorem Logged_callHandler (client : ConfigClient) (history : List Event) (h : Option HandlerFn)
    (g d c : String) : Logged client history (callHandler h g d c []) := by
  cases h <;> simp [callHandler, Logged, Event.answers]

/-- The test of the code for a pattern is the negation of "no `*` in the
group and none in the id". -/
theorem CheckBlur_eq_false_iff (v : SubscribeVar) : v.CheckBlur = false ↔ v.IsExact := by
  unfold SubscribeVar.CheckBlur SubscribeVar.IsExact
  by_cases hg : '*' ∈ v.Group.data <;> by_cases hi : '*' ∈ v.ID.data <;> simp [hg, hi]

theorem exactVars_cons_blur (svar : SubscribeVar) (rest : List SubscribeVar)
    (hb : svar.CheckBlur = true) : exactVars (svar :: rest) = exactVars rest := by
  have hne : ¬ svar.IsExact := fun h => by
    rw [(CheckBlur_eq_false_iff svar).2 h] at hb
    exact Bool.false_ne_true hb
  simp [exactVars, hne]

theorem exactVars_cons_exact (svar : SubscribeVar) (rest : List SubscribeVar)
    (hb : ¬ svar.CheckBlur = true) : exactVars (svar :: rest) = svar :: exactVars rest := by
  have he : svar.IsExact := (CheckBlur_eq_false_iff svar).1 (by simpa using hb)
  simp [exactVars, he]

/-- The events that the code produces for an exact variable are those that
the run owes it. -/
theorem offlineEvents_eq (svar : SubscribeVar) (content : String) :
    Event.getConfig { DataId := svar.ID, Group := svar.Group, Content := "", OnChange := none }
        content none ::
      callHandler svar.Handler svar.Group svar.ID content [] =
    offlineEvents (svar, content) := by
  unfold offlineEvents callHandler
  cases svar.Handler <;> rfl

theorem subscribeOfflineLoop_ok (client : ConfigClient) :
    ∀ (svars : List SubscribeVar) (this : Repo) (trace : List Event) (this' : Repo)
      (trace' : List Event),
      subscribeOfflineLoop client svars this trace = (none, this', trace') →
      ∃ contents : List String,
        contents.length = (exactVars svars).length ∧
        trace' = trace ++ ((exactVars svars).zip contents).flatMap offlineEvents ∧
        this'.localDict = ((exactVars svars).zip contents).foldl offlineCache this.localDict ∧
        Logged client trace (((exactVars svars).zip contents).flatMap offlineEvents) := by
  intro svars
  induction svars with
  | nil =>
    intro this trace this' trace' h
    simp [subscribeOfflineLoop] at h
    exact ⟨[], by simp [exactVars, h.1, h.2, Logged]⟩
  | cons svar rest ih =>
    intro this trace this' trace' h
    unfold subscribeOfflineLoop at h
    by_cases hb : svar.CheckBlur = true
    · simp only [hb, if_true] at h
      rw [exactVars_cons_blur svar rest hb]
      exact ih _ _ _ _ h
    · simp only [hb] at h
      generalize hr : client.GetConfig trace
        { DataId := svar.ID, Group := svar.Group, Content := "", OnChange := none } = r at h
      obtain ⟨content, err⟩ := r
      cases err with
      | some e => simp at h
      | none =>
        simp only [Bool.false_eq_true, if_false] at h
        obtain ⟨contents, h1, h2, h3, h4⟩ := ih _ _ _ _ h
        rw [exactVars_cons_exact svar rest hb]
        rw [callHandler_eq_append] at h2 h4
        refine ⟨content :: contents, ?_, ?_, ?_, ?_⟩
        · simp [h1]
        · rw [h2]
          simp only [List.zip_cons_cons, List.flatMap_cons, ← offlineEvents_eq svar content,
            List.append_assoc, List.singleton_append, List.cons_append, List.nil_append]
        · rw [h3]
          rfl
        · simp only [List.zip_cons_cons, List.flatMap_cons]
          rw [Logged_append, ← offlineEvents_eq svar content]
          refine ⟨⟨by simp [Event.answers, hr], Logged_callHandler _ _ _ _ _ _⟩, ?_⟩
          simpa [List.append_assoc] using h4

theorem foldl_offlineCache_isSome :
    ∀ (l : List (SubscribeVar × String)) (d : String → Option String) (k : String),
      ((l.foldl offlineCache d) k).isSome = true ↔
        (d k).isSome = true ∨ ∃ vc ∈ l, vc.1.Group ++ "::" ++ vc.1.ID = k := by
  intro l
  induction l with
  | nil => intro d k; simp
  | cons vc l ih =>
    intro d k
    rw [List.foldl_cons, ih]
    by_cases hk : k = vc.1.Group ++ "::" ++ vc.1.ID
    · simp [offlineCache, hk]
    · have hk' : ¬ vc.1.Group ++ "::" ++ vc.1.ID = k := fun h => hk h.symm
      simp [offlineCache, hk, hk']

theorem exists_mem_zip_fst {α β : Type} (P : α → Prop) (l : List α) (c : List β)
    (hc : c.length = l.length) : (∃ p ∈ l.zip c, P p.1) ↔ ∃ a ∈ l, P a := by
  have hmap : (l.zip c).map Prod.fst = l := List.map_fst_zip l c (by omega)
  constructor
  · rintro ⟨p, hp, hP⟩
    refine ⟨p.1, ?_, hP⟩
    rw [← hmap]
    exact List.mem_map_of_mem _ hp
  · rintro ⟨a, ha, hP⟩
    rw [← hmap] at ha
    obtain ⟨p, hp, rfl⟩ := List.mem_map.1 ha
    exact ⟨p, hp, hP⟩

theorem offlineEvents_kind (vc : SubscribeVar × String) :
    ∀ e ∈ offlineEvents vc, e.isSearch = false ∧ e.isListen = false := by
  intro e he
  unfold offlineEvents at he
  cases hh : vc.1.Handler <;> simp [hh] at he
  · subst he; simp [Event.isSearch, Event.isListen]
  · rcases he with he | he <;> subst he <;> simp [Event.isSearch, Event.isListen]

/-- C5: an offline run that returns success makes no search and no listen
call. For each variable with no `*` in its group and none in its id, in
declaration order, it makes one fetch with the group and id of the variable,
stores what it fetched under the key of the pair and, when a handler is bound,
calls it once with the group, the id and the content. Variables with a `*`
contribute nothing, and from an empty cache the entries afterwards are exactly
those of the pairs of the variables without a `*`. -/
theorem subscribeOffline_exact_only (this this' : Repo) (conf : ConfRoot)
    (trace trace' : List Event) (hconf : this.config = some conf)
    (hrun : this.subscribeOffline trace = .ret (none, this', trace')) :
    ∃ contents : List String,
      contents.length = (exactVars conf.SubscribeVars).length ∧
      trace' = trace ++ ((exactVars conf.SubscribeVars).zip contents).flatMap offlineEvents ∧
      (∀ client, this.configClient = some client →
        Logged client trace (((exactVars conf.SubscribeVars).zip contents).flatMap offlineEvents)) ∧
      (∀ e ∈ ((exactVars conf.SubscribeVars).zip contents).flatMap offlineEvents,
        e.isSearch = false ∧ e.isListen = false) ∧
      this'.localDict =
        ((exactVars conf.SubscribeVars).zip contents).foldl offlineCache this.localDict ∧
      ((∀ k, this.localDict k = none) →
        (∀ k, (this'.localDict k).isSome = true ↔
          ∃ v ∈ conf.SubscribeVars, v.IsExact ∧ v.Group ++ "::" ++ v.ID = k) ∧
        ∀ group id, this'.checkVarExist group id = true ↔
          ∃ v ∈ conf.SubscribeVars, v.IsExact ∧ v.Group ++ "::" ++ v.ID = group ++ "::" ++ id) := by
  have key : ∀ contents : List String,
      contents.length = (exactVars conf.SubscribeVars).length →
      this'.localDict =
        ((exactVars conf.SubscribeVars).zip contents).foldl offlineCache this.localDict →
      ((∀ k, this.localDict k = none) →
        (∀ k, (this'.localDict k).isSome = true ↔
          ∃ v ∈ conf.SubscribeVars, v.IsExact ∧ v.Group ++ "::" ++ v.ID = k) ∧
        ∀ group id, this'.checkVarExist group id = true ↔
          ∃ v ∈ conf.SubscribeVars, v.IsExact ∧
            v.Group ++ "::" ++ v.ID = group ++ "::" ++ id) := by
    intro contents hlen hthis hempty
    have hk : ∀ k, (this'.localDict k).isSome = true ↔
        ∃ v ∈ conf.SubscribeVars, v.IsExact ∧ v.Group ++ "::" ++ v.ID = k := by
      intro k
      rw [hthis, foldl_offlineCache_isSome, hempty k,
        exists_mem_zip_fst (fun v => v.Group ++ "::" ++ v.ID = k) _ _ hlen]
      simp [exactVars, and_assoc]
    refine ⟨hk, ?_⟩
    intro group id
    rw [← hk]
    unfold Repo.checkVarExist formatVarKey
    cases this'.localDict (group ++ "::" ++ id) <;> simp
  have kinds : ∀ contents : List String,
      ∀ e ∈ ((exactVars conf.SubscribeVars).zip contents).flatMap offlineEvents,
        e.isSearch = false ∧ e.isListen = false := by
    intro contents e he
    obtain ⟨vc, _, hvc⟩ := List.mem_flatMap.1 he
    exact offlineEvents_kind vc e hvc
  unfold Repo.subscribeOffline at hrun
  rw [hconf] at hrun
  cases hclient : this.configClient with
  | some client =>
    simp only [hclient, Outcome.ret.injEq] at hrun
    obtain ⟨contents, h1, h2, h3, h4⟩ := subscribeOfflineLoop_ok client _ _ _ _ _ hrun
    refine ⟨contents, h1, h2, ?_, kinds contents, h3, key contents h1 h3⟩
    intro c hc
    cases hc
    exact h4
  | none =>
    simp only [hclient] at hrun
    split at hrun
    · rename_i hall
      simp only [Outcome.ret.injEq, Prod.mk.injEq, true_and] at hrun
      have hex : exactVars conf.SubscribeVars = [] := by
        simp only [exactVars, List.filter_eq_nil_iff]
        intro v hv
        have hb : v.CheckBlur = true := List.all_eq_true.1 hall v hv
        intro he
        rw [(CheckBlur_eq_false_iff v).2 (of_decide_eq_true he)] at hb
        exact Bool.false_ne_true hb
      refine ⟨[], by simp [hex], by simp [hex, hrun.2], ?_, kinds [], by simp [hex, hrun.1],
        key [] (by simp [hex]) (by simp [hex, hrun.1])⟩
      intro c hc
      simp at hc
    · simp at hrun

theorem subscribeOffline_exact_only_witness :
    offlineExample.config =
        some (exampleConf true [⟨"G1", "D1", "h1", some h1⟩, ⟨"G*", "D2", "h2", some h2⟩]) ∧
      offlineExample.subscribeOffline [] =
        .ret (none, offlineExpected,
          [Event.getConfig { DataId := "D1", Group := "G1", Content := "", OnChange := none }
              "v:G1/D1" none,
            Event.handler h1 "G1" "D1" "v:G1/D1"]) ∧
      (∃ contents : List String,
        contents.length = (exactVars (exampleConf true
          [⟨"G1", "D1", "h1", some h1⟩, ⟨"G*", "D2", "h2", some h2⟩]).SubscribeVars).length ∧
        [Event.getConfig { DataId := "D1", Group := "G1", Content := "", OnChange := none }
              "v:G1/D1" none,
            Event.handler h1 "G1" "D1" "v:G1/D1"] =
          [] ++ ((exactVars (exampleConf true
            [⟨"G1", "D1", "h1", some h1⟩, ⟨"G*", "D2", "h2", some h2⟩]).SubscribeVars).zip
              contents).flatMap offlineEvents) ∧
      exactVars [⟨"G1", "D1", "h1", some h1⟩, ⟨"G*", "D2", "h2", some h2⟩] =
        [⟨"G1", "D1", "h1", some h1⟩] ∧
      offlineExpected.checkVarExist "G1" "D1" = true ∧
      offlineExpected.checkVarExist "G*" "D2" = false := by
  have h := subscribeOffline_exact_only offlineExample offlineExpected
    (exampleConf true [⟨"G1", "D1", "h1", some h1⟩, ⟨"G*", "D2", "h2", some h2⟩]) []
    [Event.getConfig { DataId := "D1", Group := "G1", Content := "", OnChange := none }
        "v:G1/D1" none,
      Event.handler h1 "G1" "D1" "v:G1/D1"] rfl rfl
  obtain ⟨contents, hlen, htrace, _, _, _, hkeys⟩ := h
  have hpairs := (hkeys (fun _ => rfl)).2
  refine ⟨rfl, rfl, ⟨contents, hlen, htrace⟩, by decide, ?_, ?_⟩
  · exact (hpairs "G1" "D1").2 ⟨⟨"G1", "D1", "h1", some h1⟩, by decide, by decide, by decide⟩
  · cases hc : offlineExpected.checkVarExist "G*" "D2" with
    | false => rfl
    | true =>
      obtain ⟨v, hv, hex, hkey⟩ := (hpairs "G*" "D2").1 hc
      simp only [exampleConf, List.mem_cons, List.mem_singleton, List.not_mem_nil, or_false] at hv
      rcases hv with rfl | rfl
      · exact absurd hkey (by decide)
      · exact absurd hex (by decide)

theorem Run.Grows.refl (client : ConfigClient) (s : Run) : s.Grows client s [] :=
  ⟨fun _ h => h, fun h => h, [], by simp, by simp, by simp [Logged]⟩

theorem Run.Grows.trans {client : ConfigClient} {s s' s'' : Run} {a b : List Event}
    (h1 : s.Grows client s' a) (h2 : s'.Grows client s'' b) : s.Grows client s'' (a ++ b) := by
  obtain ⟨k1, d1, e1, t1, c1, l1⟩ := h1
  obtain ⟨k2, d2, e2, t2, c2, l2⟩ := h2
  refine ⟨fun k h => k2 k (k1 k h), fun h => d2 (d1 h), e1 ++ e2, ?_, ?_, ?_⟩
  · rw [t2, t1, List.append_assoc]
  · rw [List.filter_append, c1, c2]
  · rw [Logged_append]
    refine ⟨l1, ?_⟩
    rw [← t1]
    exact l2

theorem Run.Grows.of_eq {client : ConfigClient} {s s' : Run} {a b : List Event}
    (h : s.Grows client s' a) (hab : a = b) : s.Grows client s' b := hab ▸ h

theorem addVar_isSome (this : Repo) (k content x : String)
    (h : (this.localDict x).isSome = true) : ((this.addVar k content).localDict x).isSome = true := by
  unfold Repo.addVar
  by_cases hx : x = k <;> simp [hx, h]

theorem addVar_isSome_self (this : Repo) (k content : String) :
    ((this.addVar k content).localDict k).isSome = true := by
  simp [Repo.addVar]

theorem Logged_of_no_call (client : ConfigClient) :
    ∀ (ext history : List Event), (∀ e ∈ ext, e.isCall = false) → Logged client history ext := by
  intro ext
  induction ext with
  | nil => intro _ _; simp [Logged]
  | cons e ext ih =>
    intro history h
    refine ⟨?_, ih _ fun e' he' => h e' (List.mem_cons_of_mem _ he')⟩
    have := h e (List.mem_cons_self _ _)
    cases e <;> simp [Event.isCall] at this
    simp [Event.answers]

theorem callHandler_no_call (h : Option HandlerFn) (g d c : String) :
    ∀ e ∈ callHandler h g d c [], e.isCall = false := by
  intro e he
  cases h <;> simp [callHandler] at he
  subst he
  rfl

/-- A handler call leaves the cache alone and adds no client call. -/
theorem Run.grows_callHandler (client : ConfigClient) (s : Run) (h : Option HandlerFn)
    (g d c : String) :
    s.Grows client { s with trace := callHandler h g d c s.trace } [] := by
  refine ⟨fun _ hk => hk, fun hd => hd, callHandler h g d c [], ?_, ?_, ?_⟩
  · exact callHandler_eq_append h g d c s.trace
  · rw [List.filter_eq_nil_iff]
    intro e he
    simp [callHandler_no_call h g d c e he]
  · exact Logged_of_no_call client _ _ (callHandler_no_call h g d c)

/-- A cache write keeps every key and adds no client call. -/
theorem Run.grows_addVar (client : ConfigClient) (s : Run) (k content : String) :
    s.Grows client { s with repo := s.repo.addVar k content } [] := by
  refine ⟨fun x hx => addVar_isSome _ _ _ _ hx, ?_, [], by simp, by simp, by simp [Logged]⟩
  intro hd
  exact ⟨fun x hx => addVar_isSome _ _ _ _ (hd.1 x hx),
    fun p hp => addVar_isSome _ _ _ _ (hd.2 p hp)⟩

/-- A logged client call leaves the cache alone. -/
theorem Run.grows_call (client : ConfigClient) (s : Run) (e : Event) (hcall : e.isCall = true)
    (hans : e.answers client s.trace) :
    s.Grows client { s with trace := s.trace ++ [e] } [e] := by
  refine ⟨fun _ hk => hk, fun hd => hd, [e], rfl, by simp [hcall], ?_⟩
  simp [Logged, hans]

theorem Run.envAct_grows (client : ConfigClient) (s : Run) (a : EnvAct) :
    s.Grows client (s.envAct a) [] := by
  cases a with
  | fire reg ns group dataId data =>
    simp only [Run.envAct]
    split
    · exact Run.Grows.refl client s
    · refine ⟨fun x hx => addVar_isSome _ _ _ _ hx, ?_, [], by simp, by simp, by simp [Logged]⟩
      intro hd
      refine ⟨fun x hx => addVar_isSome _ _ _ _ (hd.1 x hx), ?_⟩
      intro p hp
      rcases List.mem_append.1 hp with hp | hp
      · exact addVar_isSome _ _ _ _ (hd.2 p hp)
      · simp only [List.mem_singleton] at hp
        subst hp
        exact addVar_isSome_self _ _ _
  | resume i =>
    simp only [Run.envAct]
    split
    · exact Run.Grows.refl client s
    · rename_i p hp
      have hmem : p ∈ s.inflight := List.mem_iff_get?.2 ⟨i, hp⟩
      split
      · refine ⟨fun _ hk => hk, ?_, [], by simp, by simp, by simp [Logged]⟩
        intro hd
        refine ⟨?_, fun q hq => hd.2 q (List.mem_of_mem_eraseIdx hq)⟩
        intro x hx
        rcases List.mem_append.1 hx with hx | hx
        · exact hd.1 x hx
        · simp only [List.mem_singleton] at hx
          subst hx
          exact hd.2 p hmem
      · obtain ⟨hk, _, hext⟩ := Run.grows_callHandler client s p.h p.group p.dataId p.data
        refine ⟨hk, ?_, hext⟩
        intro hd
        refine ⟨hd.1, ?_⟩
        intro q hq
        rcases List.mem_or_eq_of_mem_set hq with hq | hq
        · exact hd.2 q hq
        · subst hq
          exact hd.2 p hmem

theorem Run.foldl_envAct_grows (client : ConfigClient) :
    ∀ (acts : List EnvAct) (s : Run), s.Grows client (acts.foldl Run.envAct s) [] := by
  intro acts
  induction acts with
  | nil => intro s; exact Run.Grows.refl client s
  | cons a acts ih =>
    intro s
    exact ((Run.envAct_grows client s a).trans (ih (s.envAct a))).of_eq rfl

theorem Run.envSlot_grows (client : ConfigClient) (s : Run) : s.Grows client s.envSlot [] := by
  unfold Run.envSlot
  split
  · exact Run.Grows.refl client s
  · rename_i acts rest _
    have h0 : s.Grows client { s with sched := rest } [] :=
      ⟨fun _ hk => hk, fun hd => hd, [], by simp, by simp, by simp [Logged]⟩
    exact (h0.trans (Run.foldl_envAct_grows client acts _)).of_eq rfl

theorem Run.listen_grows (client : ConfigClient) (svar : SubscribeVar) (s : Run) :
    s.Grows client (s.listen client svar).2
      [Event.listenConfig (listenParam svar) (s.listen client svar).1] := by
  have h1 := Run.envSlot_grows client s
  have h2 : s.envSlot.Grows client (s.listen client svar).2
      [Event.listenConfig (listenParam svar) (s.listen client svar).1] := by
    refine ⟨fun _ hk => hk, fun hd => hd,
      [Event.listenConfig (listenParam svar) (s.listen client svar).1], rfl, by simp [Event.isCall], ?_⟩
    simp [Logged, Event.answers, Run.listen, listenParam]
  exact (h1.trans h2).of_eq rfl

theorem searchLoop_succ (client : ConfigClient) (svar : SubscribeVar) (fuel : Nat)
    (pageIndex : Int) (vars : List ConfigItem) (s : Run) :
    searchLoop client svar (fuel + 1) pageIndex vars s =
      match (client.SearchConfig s.envSlot.trace (searchParam svar pageIndex)).2,
        (client.SearchConfig s.envSlot.trace (searchParam svar pageIndex)).1 with
      | some err, _ => .ret (some err, vars, s.afterSearch client svar pageIndex)
      | none, none => .crash
      | none, some configPage =>
        if configPage.PageItems.length < 1000 then
          .ret (none, vars ++ configPage.PageItems, s.afterSearch client svar pageIndex)
        else
          searchLoop client svar fuel (pageIndex + 1) (vars ++ configPage.PageItems)
            (s.afterSearch client svar pageIndex) := rfl

theorem searchLoop_step_grows (client : ConfigClient) (svar : SubscribeVar) (pageIndex : Int)
    (s : Run) :
    s.Grows client (s.afterSearch client svar pageIndex)
      [Event.searchConfig (searchParam svar pageIndex)
        (client.SearchConfig s.envSlot.trace (searchParam svar pageIndex)).1
        (client.SearchConfig s.envSlot.trace (searchParam svar pageIndex)).2] :=
  ((Run.envSlot_grows client s).trans
    (Run.grows_call client s.envSlot _ (by rfl) (by simp [Event.answers]))).of_eq rfl

/-- Every successful paging loop has read a list of pages, numbered from the
start index on, and returns their items in order after the items it began with. -/
theorem searchLoop_ok (client : ConfigClient) (svar : SubscribeVar) :
    ∀ (fuel : Nat) (pageIndex : Int) (vars vars' : List ConfigItem) (s s' : Run),
      searchLoop client svar fuel pageIndex vars s = .ret (none, vars', s') →
      ∃ pages : List ConfigPage,
        vars' = vars ++ pages.flatMap ConfigPage.PageItems ∧
        s.Grows client s' (searchEvents svar pageIndex pages) := by
  intro fuel
  induction fuel with
  | zero => intro pageIndex vars vars' s s' h; simp [searchLoop] at h
  | succ fuel ih =>
    intro pageIndex vars vars' s s' h
    have hstep := searchLoop_step_grows client svar pageIndex s
    rw [searchLoop_succ] at h
    generalize client.SearchConfig s.envSlot.trace (searchParam svar pageIndex) = r at h hstep
    obtain ⟨page, err⟩ := r
    cases err with
    | some e => simp at h
    | none =>
      cases page with
      | none => simp at h
      | some page =>
        simp only at h
        split at h
        · simp only [Outcome.ret.injEq, Prod.mk.injEq, true_and] at h
          refine ⟨[page], by simp [h.1], ?_⟩
          rw [← h.2]
          exact hstep
        · obtain ⟨pages, hv, hg⟩ := ih _ _ _ _ _ h
          refine ⟨page :: pages, by simp [hv], ?_⟩
          exact (hstep.trans hg).of_eq rfl

/-- When the client answers the searches of a variable with `n` full pages
and then a short one, the paging loop with enough fuel makes exactly the
`n + 1` searches for these pages and returns their items in order. -/
theorem searchLoop_pages (client : ConfigClient) (svar : SubscribeVar) :
    ∀ (n fuel : Nat) (pageIndex : Int) (vars : List ConfigItem) (s : Run),
      n + 1 ≤ fuel →
      (∀ (history : List Event) (i : Nat), i < n →
        ∃ page, client.SearchConfig history (searchParam svar (pageIndex + i)) = (some page, none) ∧
          page.PageItems.length = 1000) →
      (∀ history : List Event,
        ∃ page, client.SearchConfig history (searchParam svar (pageIndex + n)) = (some page, none) ∧
          page.PageItems.length < 1000) →
      ∃ (pages : List ConfigPage) (s' : Run),
        pages.length = n + 1 ∧
        searchLoop client svar fuel pageIndex vars s =
          .ret (none, vars ++ pages.flatMap ConfigPage.PageItems, s') ∧
        s.Grows client s' (searchEvents svar pageIndex pages) := by
  intro n
  induction n with
  | zero =>
    intro fuel pageIndex vars s hfuel _ hlast
    obtain ⟨fuel, rfl⟩ : ∃ f, fuel = f + 1 := ⟨fuel - 1, by omega⟩
    have hstep := searchLoop_step_grows client svar pageIndex s
    obtain ⟨page, hpage, hlen⟩ := hlast s.envSlot.trace
    simp only [Nat.cast_zero, add_zero] at hpage
    rw [hpage] at hstep
    refine ⟨[page], _, rfl, ?_, hstep⟩
    rw [searchLoop_succ, hpage]
    simp [hlen]
  | succ n ih =>
    intro fuel pageIndex vars s hfuel hfull hlast
    obtain ⟨fuel, rfl⟩ : ∃ f, fuel = f + 1 := ⟨fuel - 1, by omega⟩
    have hstep := searchLoop_step_grows client svar pageIndex s
    obtain ⟨page, hpage, hlen⟩ := hfull s.envSlot.trace 0 (by omega)
    simp only [Nat.cast_zero, add_zero] at hpage
    rw [hpage] at hstep
    obtain ⟨pages, s', hpl, hrun, hg⟩ := ih fuel (pageIndex + 1) (vars ++ page.PageItems)
      _ (by omega)
      (fun history i hi => by
        obtain ⟨pg, h1, h2⟩ := hfull history (i + 1) (by omega)
        refine ⟨pg, ?_, h2⟩
        rw [← h1]
        congr 2
        push_cast
        ring)
      (fun history => by
        obtain ⟨pg, h1, h2⟩ := hlast history
        refine ⟨pg, ?_, h2⟩
        rw [← h1]
        congr 2
        push_cast
        ring)
    refine ⟨page :: pages, s', by simp [hpl], ?_, (hstep.trans hg).of_eq rfl⟩
    rw [searchLoop_succ, hpage]
    simp only [hlen, lt_self_iff_false, if_false]
    rw [hrun]
    simp

theorem lookup_eq_none_iff_keys (dict : Dict) (k : String) :
    dict.lookup k = none ↔ k ∉ dict.map Prod.fst := by
  rw [List.lookup_eq_none_iff]
  simp only [List.mem_map, not_exists, not_and, bne_iff_ne, ne_eq]
  constructor
  · intro h p hp hk
    exact h p hp hk.symm
  · intro h p hp hk
    exact h p hp hk.symm

theorem mem_searchEvents (svar : SubscribeVar) :
    ∀ (pages : List ConfigPage) (p : Int) (e : Event), e ∈ searchEvents svar p pages →
      e.isSearch = true ∧
        ∀ param page err, e = Event.searchConfig param (some page) err → page ∈ pages := by
  intro pages
  induction pages with
  | nil => intro p e he; simp [searchEvents] at he
  | cons pg pages ih =>
    intro p e he
    simp only [searchEvents, List.mem_cons] at he
    rcases he with he | he
    · subst he
      refine ⟨rfl, ?_⟩
      intro param page err h
      simp only [Event.searchConfig.injEq, Option.some.injEq] at h
      simp [h.2.1]
    · obtain ⟨h1, h2⟩ := ih _ e he
      exact ⟨h1, fun param page err h => List.mem_cons_of_mem _ (h2 param page err h)⟩

/-- A successful listen loop leaves the key of every item in the dictionary
and makes no search. -/
theorem listenItems_ok (client : ConfigClient) (svar : SubscribeVar) :
    ∀ (items : List ConfigItem) (dict dict' : Dict) (s s' : Run),
      listenItems client svar items dict s = (none, dict', s') →
      ∃ calls, s.Grows client s' calls ∧ (∀ e ∈ calls, e.isSearch = false) ∧
        (∀ k ∈ dict.map Prod.fst, k ∈ dict'.map Prod.fst) ∧
        ∀ item ∈ items, formatVarKey item.Group item.DataId ∈ dict'.map Prod.fst := by
  intro items
  induction items with
  | nil =>
    intro dict dict' s s' h
    simp only [listenItems, Prod.mk.injEq, true_and] at h
    obtain ⟨rfl, rfl⟩ := h
    exact ⟨[], Run.Grows.refl client s, by simp, fun k hk => hk, by simp⟩
  | cons item rest ih =>
    intro dict dict' s s' h
    unfold listenItems at h
    simp only at h
    cases hlook : dict.lookup (formatVarKey item.Group item.DataId) with
    | some v =>
      simp only [hlook] at h
      obtain ⟨calls, hg, hs, hmono, hitems⟩ := ih _ _ _ _ h
      refine ⟨calls, hg, hs, hmono, ?_⟩
      intro it hit
      rcases List.mem_cons.1 hit with hit | hit
      · subst hit
        apply hmono
        by_contra hn
        rw [← lookup_eq_none_iff_keys, hlook] at hn
        simp at hn
      · exact hitems it hit
    | none =>
      simp only [hlook] at h
      have hl := Run.listen_grows client svar s
      cases herr : (s.listen client svar).1 with
      | some e => simp [herr] at h
      | none =>
        simp only [herr] at h
        obtain ⟨calls, hg, hs, hmono, hitems⟩ := ih _ _ _ _ h
        refine ⟨_, hl.trans hg, ?_, ?_, ?_⟩
        · intro e he
          rcases List.mem_append.1 he with he | he
          · simp only [List.mem_singleton] at he
            subst he
            rfl
          · exact hs e he
        · intro k hk
          exact hmono k (by simp only [List.map_append, List.mem_append]; exact Or.inl hk)
        · intro it hit
          rcases List.mem_cons.1 hit with hit | hit
          · subst hit
            exact hmono _ (by simp)
          · exact hitems it hit

/-- What a successful iteration of the first loop establishes: the key of an
exact variable, and the key of every item that a search returned, is in the
dictionary. -/
theorem subscribeVar_ok (client : ConfigClient) (fuel : Nat) (svar : SubscribeVar)
    (dict dict' : Dict) (s s' : Run)
    (h : subscribeVar client fuel svar dict s = .ret (none, dict', s')) :
    ∃ calls, s.Grows client s' calls ∧
      (∀ k ∈ dict.map Prod.fst, k ∈ dict'.map Prod.fst) ∧
      (svar.CheckBlur = false → formatVarKey svar.Group svar.ID ∈ dict'.map Prod.fst) ∧
      ∀ param page err item, Event.searchConfig param (some page) err ∈ calls →
        item ∈ page.PageItems → formatVarKey item.Group item.DataId ∈ dict'.map Prod.fst := by
  unfold subscribeVar at h
  by_cases hb : svar.CheckBlur = true
  · simp only [hb, Bool.not_true, Bool.false_eq_true, if_false] at h
    cases hloop : searchLoop client svar fuel 1 [] s with
    | crash => simp [hloop] at h
    | outOfFuel => simp [hloop] at h
    | ret r =>
      obtain ⟨err, vars, s1⟩ := r
      cases err with
      | some e => simp [hloop] at h
      | none =>
        simp only [hloop, Outcome.ret.injEq] at h
        obtain ⟨pages, hv, hg1⟩ := searchLoop_ok client svar _ _ _ _ _ _ hloop
        obtain ⟨calls, hg2, hs, hmono, hitems⟩ := listenItems_ok client svar _ _ _ _ _ h
        refine ⟨_, hg1.trans hg2, hmono, by simp [hb], ?_⟩
        intro param page err item he hitem
        rcases List.mem_append.1 he with he | he
        · have hp := (mem_searchEvents svar pages 1 _ he).2 param page err rfl
          apply hitems
          rw [hv]
          simp only [List.nil_append, List.mem_flatMap]
          exact ⟨page, hp, hitem⟩
        · have := hs _ he
          simp [Event.isSearch] at this
  · simp only [hb, Bool.not_false, if_true] at h
    have hb' : svar.CheckBlur = false := by simpa using hb
    cases hlook : dict.lookup (formatVarKey svar.Group svar.ID) with
    | some v =>
      simp only [hlook, Outcome.ret.injEq, Prod.mk.injEq, true_and] at h
      obtain ⟨rfl, rfl⟩ := h
      refine ⟨[], Run.Grows.refl client s, fun k hk => hk, ?_, by simp⟩
      intro _
      by_contra hn
      rw [← lookup_eq_none_iff_keys, hlook] at hn
      simp at hn
    | none =>
      simp only [hlook] at h
      have hl := Run.listen_grows client svar s
      cases herr : (s.listen client svar).1 with
      | some e => simp [herr] at h
      | none =>
        simp only [herr, Outcome.ret.injEq, Prod.mk.injEq, true_and] at h
        obtain ⟨rfl, rfl⟩ := h
        refine ⟨_, hl, ?_, by simp, ?_⟩
        · intro k hk
          simp only [List.map_append, List.mem_append]
          exact Or.inl hk
        · intro param page err item he
          simp at he

theorem subscribeVars_ok (client : ConfigClient) (fuel : Nat) :
    ∀ (svars : List SubscribeVar) (dict dict' : Dict) (s s' : Run),
      subscribeVars client fuel svars dict s = .ret (none, dict', s') →
      ∃ calls, s.Grows client s' calls ∧
        (∀ k ∈ dict.map Prod.fst, k ∈ dict'.map Prod.fst) ∧
        (∀ svar ∈ svars, svar.CheckBlur = false →
          formatVarKey svar.Group svar.ID ∈ dict'.map Prod.fst) ∧
        ∀ param page err item, Event.searchConfig param (some page) err ∈ calls →
          item ∈ page.PageItems → formatVarKey item.Group item.DataId ∈ dict'.map Prod.fst := by
  intro svars
  induction svars with
  | nil =>
    intro dict dict' s s' h
    simp only [subscribeVars, Outcome.ret.injEq, Prod.mk.injEq, true_and] at h
    obtain ⟨rfl, rfl⟩ := h
    exact ⟨[], Run.Grows.refl client s, fun k hk => hk, by simp, by simp⟩
  | cons svar rest ih =>
    intro dict dict' s s' h
    unfold subscribeVars at h
    cases hstep : subscribeVar client fuel svar dict s with
    | crash => simp [hstep] at h
    | outOfFuel => simp [hstep] at h
    | ret r =>
      obtain ⟨err, dict1, s1⟩ := r
      cases err with
      | some e => simp [hstep] at h
      | none =>
        simp only [hstep] at h
        obtain ⟨c1, hg1, hm1, hx1, hi1⟩ := subscribeVar_ok client fuel svar _ _ _ _ hstep
        obtain ⟨c2, hg2, hm2, hx2, hi2⟩ := ih _ _ _ _ h
        refine ⟨_, hg1.trans hg2, fun k hk => hm2 k (hm1 k hk), ?_, ?_⟩
        · intro v hv hvb
          rcases List.mem_cons.1 hv with hv | hv
          · subst hv
            exact hm2 _ (hx1 hvb)
          · exact hx2 v hv hvb
        · intro param page err item he hitem
          rcases List.mem_append.1 he with he | he
          · exact hm2 _ (hi1 param page err item he hitem)
          · exact hi2 param page err item he hitem

theorem ContainsString_nonneg (arr : List String) (str : String) (h : ContainsString arr str ≥ 0) :
    str ∈ arr := by
  unfold ContainsString at h
  by_contra hn
  simp [hn] at h

/-- A successful drain leaves every key it went through in the cache, and
makes no search. -/
theorem drainLoop_ok (client : ConfigClient) :
    ∀ (l : List (String × SubscribeVar)) (s s' : Run),
      drainLoop client l s = (none, s') →
      ∃ calls, s.Grows client s' calls ∧ (∀ e ∈ calls, e.isSearch = false) ∧
        (s.Delivered → ∀ kv ∈ l, (s'.repo.localDict kv.1).isSome = true) := by
  intro l
  induction l with
  | nil =>
    intro s s' h
    simp only [drainLoop, Prod.mk.injEq, true_and] at h
    subst h
    exact ⟨[], Run.Grows.refl client s, by simp, by simp⟩
  | cons kv rest ih =>
    intro s s' h
    obtain ⟨k, v⟩ := kv
    unfold drainLoop at h
    simp only at h
    have g1 := Run.envSlot_grows client s
    split at h
    · rename_i hin
      obtain ⟨calls, hg, hs, hall⟩ := ih _ _ h
      refine ⟨_, g1.trans hg, by simpa using hs, ?_⟩
      intro hd kv hkv
      have hd1 := g1.2.1 hd
      rcases List.mem_cons.1 hkv with hkv | hkv
      · subst hkv
        exact hg.1 _ (hd1.1 _ (ContainsString_nonneg _ _ hin))
      · exact hall hd1 kv hkv
    · have g2 := Run.envSlot_grows client s.envSlot
      generalize hr : client.GetConfig s.envSlot.envSlot.trace
        { DataId := v.ID, Group := v.Group, Content := "", OnChange := none } = r at h
      obtain ⟨content, err⟩ := r
      cases err with
      | some e => simp at h
      | none =>
        simp only at h
        have g3 := Run.grows_call client s.envSlot.envSlot
          (Event.getConfig { DataId := v.ID, Group := v.Group, Content := "", OnChange := none }
            content none) rfl (by simp [Event.answers, hr])
        have g4 := Run.envSlot_grows client
          { s.envSlot.envSlot with
            trace := s.envSlot.envSlot.trace ++
              [Event.getConfig { DataId := v.ID, Group := v.Group, Content := "", OnChange := none }
                content none] }
        have g5 := Run.grows_addVar client
          ({ s.envSlot.envSlot with
            trace := s.envSlot.envSlot.trace ++
              [Event.getConfig { DataId := v.ID, Group := v.Group, Content := "", OnChange := none }
                content none] } : Run).envSlot k content
        have g6 := Run.envSlot_grows client
          { ({ s.envSlot.envSlot with
            trace := s.envSlot.envSlot.trace ++
              [Event.getConfig { DataId := v.ID, Group := v.Group, Content := "", OnChange := none }
                content none] } : Run).envSlot with
            repo := ({ s.envSlot.envSlot with
              trace := s.envSlot.envSlot.trace ++
                [Event.getConfig
                  { DataId := v.ID, Group := v.Group, Content := "", OnChange := none }
                  content none] } : Run).envSlot.repo.addVar k content }
        have g7 := Run.grows_callHandler client
          ({ ({ s.envSlot.envSlot with
            trace := s.envSlot.envSlot.trace ++
              [Event.getConfig { DataId := v.ID, Group := v.Group, Content := "", OnChange := none }
                content none] } : Run).envSlot with
            repo := ({ s.envSlot.envSlot with
              trace := s.envSlot.envSlot.trace ++
                [Event.getConfig
                  { DataId := v.ID, Group := v.Group, Content := "", OnChange := none }
                  content none] } : Run).envSlot.repo.addVar k content } : Run).envSlot
          v.Handler v.Group v.ID content
        obtain ⟨calls, hg, hs, hall⟩ := ih _ _ h
        have g67 := g6.trans g7
        have gpre := (g1.trans g2).trans (g3.trans (g4.trans g5))
        refine ⟨_, (gpre.trans g67).trans hg, ?_, ?_⟩
        · intro e he
          simp only [List.nil_append, List.append_nil, List.singleton_append, List.mem_cons] at he
          rcases he with he | he
          · subst he; rfl
          · exact hs e he
        · intro hd kv hkv
          rcases List.mem_cons.1 hkv with hkv | hkv
          · subst hkv
            exact hg.1 _ (g67.1 _ (addVar_isSome_self _ _ _))
          · exact hall (g67.2.1 (gpre.2.1 hd)) kv hkv

theorem checkVarExist_eq_true (this : Repo) (group id : String) :
    this.checkVarExist group id = true ↔
      (this.localDict (formatVarKey group id)).isSome = true := by
  unfold Repo.checkVarExist
  cases this.localDict (formatVarKey group id) <;> simp

theorem mem_keys_of_isSome_all (l : List (String × SubscribeVar)) (d : String → Option String)
    (h : ∀ kv ∈ l, (d kv.1).isSome = true) : ∀ k ∈ l.map Prod.fst, (d k).isSome = true := by
  intro k hk
  obtain ⟨kv, hkv, rfl⟩ := List.mem_map.1 hk
  exact h kv hkv

/-- C4: after an online run that returns success, under any schedule of the
listener callbacks and any iteration order of the dictionary, the cache holds an
entry for every exact variable and for every item that a search of the run
returned. -/
theorem subscribeOnline_drain_complete (this : Repo) (conf : ConfRoot) (trace : List Event)
    (rangeOrder : Dict → Dict) (sched : List (List EnvAct)) (fuel : Nat) (dict : Dict)
    (s' : Run) (hconf : this.config = some conf)
    (hperm : ∀ d, (rangeOrder d).Perm d)
    (hrun : this.subscribeOnline trace rangeOrder sched fuel = .ret (none, dict, s')) :
    (∀ svar ∈ conf.SubscribeVars, svar.CheckBlur = false →
      s'.repo.checkVarExist svar.Group svar.ID = true) ∧
    ∃ ext, s'.trace = trace ++ ext ∧
      ∀ param page err item, Event.searchConfig param (some page) err ∈ ext →
        item ∈ page.PageItems → s'.repo.checkVarExist item.Group item.DataId = true := by
  unfold Repo.subscribeOnline at hrun
  rw [hconf] at hrun
  simp only at hrun
  cases hclient : this.configClient with
  | none =>
    simp only [hclient] at hrun
    cases hvars : conf.SubscribeVars with
    | cons v vs => simp [hvars] at hrun
    | nil =>
      simp only [hvars, Outcome.ret.injEq, Prod.mk.injEq, true_and] at hrun
      obtain ⟨_, _, ext, ht, hcalls, _⟩ := Run.envSlot_grows
        ⟨fun _ _ => ("", none), fun _ _ => none, fun _ _ => (none, none),
          fun _ _ => (false, none)⟩
        { repo := this, trace := trace, list := [], regs := [], inflight := [], sched := sched }
      refine ⟨by simp, ext, ?_, ?_⟩
      · rw [← hrun.2, ht]
      · intro param page err item he
        have : Event.searchConfig param (some page) err ∈ ext.filter Event.isCall :=
          List.mem_filter.2 ⟨he, rfl⟩
        rw [hcalls] at this
        simp at this
  | some client =>
    simp only [hclient] at hrun
    cases hloop : subscribeVars client fuel conf.SubscribeVars []
        { repo := this, trace := trace, list := [], regs := [], inflight := [], sched := sched } with
    | crash => simp [hloop] at hrun
    | outOfFuel => simp [hloop] at hrun
    | ret r =>
      obtain ⟨err, dict1, s1⟩ := r
      cases err with
      | some e => simp [hloop] at hrun
      | none =>
        simp only [hloop, Outcome.ret.injEq, Prod.mk.injEq] at hrun
        obtain ⟨herr, hdict, hs'⟩ := hrun
        obtain ⟨c1, hg1, _, hx1, hi1⟩ := subscribeVars_ok client fuel _ _ _ _ _ hloop
        obtain ⟨c2, hg2, hs2, hall⟩ := drainLoop_ok client (rangeOrder dict1) s1
          (drainLoop client (rangeOrder dict1) s1).2
          (by rw [← herr])
        have hg3 := Run.envSlot_grows client (drainLoop client (rangeOrder dict1) s1).2
        rw [hs'] at hg3
        have hdel : s1.Delivered := hg1.2.1 ⟨by simp, by simp⟩
        have hkeys : ∀ k ∈ dict1.map Prod.fst, (s'.repo.localDict k).isSome = true := by
          intro k hk
          apply hg3.1
          apply mem_keys_of_isSome_all (rangeOrder dict1) _ (hall hdel)
          exact ((hperm dict1).map Prod.fst).mem_iff.2 hk
        have hg := (hg1.trans hg2).trans hg3
        obtain ⟨_, _, ext, ht, hcalls, _⟩ := hg
        refine ⟨?_, ext, ht, ?_⟩
        · intro svar hsvar hb
          rw [checkVarExist_eq_true]
          exact hkeys _ (hx1 svar hsvar hb)
        · intro param page err item he hitem
          rw [checkVarExist_eq_true]
          have hmem : Event.searchConfig param (some page) err ∈ ext.filter Event.isCall :=
            List.mem_filter.2 ⟨he, rfl⟩
          rw [hcalls, List.append_nil] at hmem
          rcases List.mem_append.1 hmem with hmem | hmem
          · exact hkeys _ (hi1 param page err item hmem hitem)
          · have := hs2 _ hmem
            simp [Event.isSearch] at this

theorem subscribeOnline_drain_complete_witness :
    onlineExample.config =
        some (exampleConf false [⟨"G1", "D1", "h1", some h1⟩, ⟨"G*", "D1", "h2", some h2⟩]) ∧
      (∀ d : Dict, (id d).Perm d) ∧
      onlineExample.subscribeOnline [] id onlineExampleSched 2 =
        .ret (none, onlineExampleResult.2.1, onlineExampleResult.2.2) ∧
      ∀ svar ∈ (exampleConf false
          [⟨"G1", "D1", "h1", some h1⟩, ⟨"G*", "D1", "h2", some h2⟩]).SubscribeVars,
        svar.CheckBlur = false →
          onlineExampleResult.2.2.repo.checkVarExist svar.Group svar.ID = true :=
  ⟨rfl, fun d => List.Perm.refl d, rfl,
    (subscribeOnline_drain_complete onlineExample _ [] id onlineExampleSched 2 _ _ rfl
      (fun d => List.Perm.refl d) rfl).1⟩

/-- C6: when the client answers the searches of a pattern variable with `n`
full pages of 1000 items and then a shorter page, the run, given fuel for
`n + 1` rounds, makes exactly `n + 1` searches for it, for pages `1` to `n + 1`
with page size 1000 and the group and id of the variable; the items it goes on
with are those of all pages in order; and when there is no item it registers no
listener, leaves the dictionary as it was and returns no error. -/
theorem subscribeOnline_paging (client : ConfigClient) (svar : SubscribeVar) (n fuel : Nat)
    (dict : Dict) (s : Run) (hblur : svar.CheckBlur = true) (hfuel : n + 1 ≤ fuel)
    (hfull : ∀ (history : List Event) (p : Nat), 1 ≤ p → p ≤ n →
      ∃ page, client.SearchConfig history (searchParam svar p) = (some page, none) ∧
        page.PageItems.length = 1000)
    (hlast : ∀ history : List Event,
      ∃ page, client.SearchConfig history (searchParam svar ((n + 1 : Nat) : Int)) =
          (some page, none) ∧ page.PageItems.length < 1000) :
    ∃ (pages : List ConfigPage) (s' : Run) (ext : List Event),
      pages.length = n + 1 ∧
      searchLoop client svar fuel 1 [] s =
        .ret (none, pages.flatMap ConfigPage.PageItems, s') ∧
      s'.trace = s.trace ++ ext ∧
      ext.filter Event.isCall = searchEvents svar 1 pages ∧
      Logged client s.trace ext ∧
      subscribeVar client fuel svar dict s =
        .ret (listenItems client svar (pages.flatMap ConfigPage.PageItems) dict s') ∧
      (pages.flatMap ConfigPage.PageItems = [] →
        subscribeVar client fuel svar dict s = .ret (none, dict, s')) := by
  obtain ⟨pages, s', hlen, hloop, _, _, ext, ht, hcalls, hlog⟩ :=
    searchLoop_pages client svar n fuel 1 [] s hfuel
      (fun history i hi => by
        obtain ⟨pg, h1, h2⟩ := hfull history (i + 1) (by omega) (by omega)
        refine ⟨pg, ?_, h2⟩
        rw [← h1]
        congr 2
        push_cast
        ring)
      (fun history => by
        obtain ⟨pg, h1, h2⟩ := hlast history
        refine ⟨pg, ?_, h2⟩
        rw [← h1]
        congr 2
        push_cast
        ring)
  simp only [List.nil_append] at hloop
  have hvar : subscribeVar client fuel svar dict s =
      .ret (listenItems client svar (pages.flatMap ConfigPage.PageItems) dict s') := by
    unfold subscribeVar
    simp only [hblur, Bool.not_true, Bool.false_eq_true, if_false, hloop]
  refine ⟨pages, s', ext, hlen, hloop, ht, hcalls, hlog, hvar, ?_⟩
  intro hnil
  rw [hvar, hnil]
  rfl

set_option maxRecDepth 100000 in
theorem subscribeOnline_paging_witness :
    ((⟨"G*", "D1", "h1", some h1⟩ : SubscribeVar).CheckBlur = true ∧
      1 + 1 ≤ 2 ∧
      (∀ (history : List Event) (p : Nat), 1 ≤ p → p ≤ 1 →
        ∃ page, (stubClient fullThenOne none).SearchConfig history
            (searchParam ⟨"G*", "D1", "h1", some h1⟩ p) = (some page, none) ∧
          page.PageItems.length = 1000) ∧
      (∀ history : List Event,
        ∃ page, (stubClient fullThenOne none).SearchConfig history
            (searchParam ⟨"G*", "D1", "h1", some h1⟩ ((1 + 1 : Nat) : Int)) = (some page, none) ∧
          page.PageItems.length < 1000) ∧
      ∃ (pages : List ConfigPage) (s' : Run),
        pages.length = 2 ∧
        pages.flatMap ConfigPage.PageItems = fullThenOne 1 ++ fullThenOne 2 ∧
        (pages.flatMap ConfigPage.PageItems).length = 1001 ∧
        searchLoop (stubClient fullThenOne none) ⟨"G*", "D1", "h1", some h1⟩ 2 1 [] Run.blank =
          .ret (none, pages.flatMap ConfigPage.PageItems, s') ∧
        s'.trace.filter Event.isCall =
          [Event.searchConfig
              { Search := "blur", DataId := "D1", Group := "G*", PageNo := 1, PageSize := 1000 }
              (some { PageItems := fullThenOne 1 }) none,
            Event.searchConfig
              { Search := "blur", DataId := "D1", Group := "G*", PageNo := 2, PageSize := 1000 }
              (some { PageItems := fullThenOne 2 }) none]) ∧
    ((⟨"G*", "D1", "h1", some h1⟩ : SubscribeVar).CheckBlur = true ∧
      0 + 1 ≤ 1 ∧
      (∀ history : List Event,
        ∃ page, (stubClient noMatch none).SearchConfig history
            (searchParam ⟨"G*", "D1", "h1", some h1⟩ ((0 + 1 : Nat) : Int)) = (some page, none) ∧
          page.PageItems.length < 1000) ∧
      ∃ s' : Run,
        subscribeVar (stubClient noMatch none) 1 ⟨"G*", "D1", "h1", some h1⟩
            [("G0::D0", ⟨"G0", "D0", "h2", some h2⟩)] Run.blank =
          .ret (none, [("G0::D0", ⟨"G0", "D0", "h2", some h2⟩)], s') ∧
        s'.trace.filter Event.isCall =
          [Event.searchConfig
            { Search := "blur", DataId := "D1", Group := "G*", PageNo := 1, PageSize := 1000 }
            (some { PageItems := [] }) none]) := by
  have hfull : ∀ (history : List Event) (p : Nat), 1 ≤ p → p ≤ 1 →
      ∃ page, (stubClient fullThenOne none).SearchConfig history
          (searchParam ⟨"G*", "D1", "h1", some h1⟩ p) = (some page, none) ∧
        page.PageItems.length = 1000 := by
    intro history p hp1 hp2
    obtain rfl : p = 1 := by omega
    exact ⟨⟨List.replicate 1000 { DataId := "D0", Group := "G0", Content := "" }⟩, rfl,
      List.length_replicate _ _⟩
  have hlast : ∀ history : List Event,
      ∃ page, (stubClient fullThenOne none).SearchConfig history
          (searchParam ⟨"G*", "D1", "h1", some h1⟩ ((1 + 1 : Nat) : Int)) = (some page, none) ∧
        page.PageItems.length < 1000 :=
    fun _ => ⟨⟨[{ DataId := "D1", Group := "G1", Content := "" }]⟩, rfl, by decide⟩
  have hlast0 : ∀ history : List Event,
      ∃ page, (stubClient noMatch none).SearchConfig history
          (searchParam ⟨"G*", "D1", "h1", some h1⟩ ((0 + 1 : Nat) : Int)) = (some page, none) ∧
        page.PageItems.length < 1000 :=
    fun _ => ⟨⟨[]⟩, rfl, by simp⟩
  refine ⟨⟨by decide, by decide, hfull, hlast, ?_⟩, ⟨by decide, by decide, hlast0, ?_⟩⟩
  · obtain ⟨pages, s', ext, hlen, hloop, _, _, _, _, _⟩ :=
      subscribeOnline_paging (stubClient fullThenOne none) ⟨"G*", "D1", "h1", some h1⟩ 1 2 []
        Run.blank (by decide) (by decide) hfull hlast
    have heval : searchLoop (stubClient fullThenOne none) ⟨"G*", "D1", "h1", some h1⟩ 2 1 []
        Run.blank =
        .ret (none, fullThenOne 1 ++ fullThenOne 2,
          Run.afterSearch (stubClient fullThenOne none) ⟨"G*", "D1", "h1", some h1⟩ 2
            (Run.afterSearch (stubClient fullThenOne none) ⟨"G*", "D1", "h1", some h1⟩ 1
              Run.blank)) := rfl
    have hloop' := hloop
    rw [heval] at hloop'
    simp only [Outcome.ret.injEq, Prod.mk.injEq, true_and] at hloop'
    obtain ⟨hitems, hs'⟩ := hloop'
    refine ⟨pages, s', hlen, hitems.symm, ?_, hloop, ?_⟩
    · rw [← hitems]
      exact (List.length_append _ _).trans
        (congrArg (· + 1) (List.length_replicate 1000
          ({ DataId := "D0", Group := "G0", Content := "" } : ConfigItem)))
    · rw [← hs']
      rfl
  · obtain ⟨pages, s', ext, hlen, hloop, ht, hcalls, hlog, hvar, hnil⟩ :=
      subscribeOnline_paging (stubClient noMatch none) ⟨"G*", "D1", "h1", some h1⟩ 0 1
        [("G0::D0", ⟨"G0", "D0", "h2", some h2⟩)]
        Run.blank (by decide) (by decide) (fun _ p hp1 hp2 => absurd hp1 (by omega)) hlast0
    have heval : searchLoop (stubClient noMatch none) ⟨"G*", "D1", "h1", some h1⟩ 1 1 []
        Run.blank =
        .ret (none, [], Run.afterSearch (stubClient noMatch none) ⟨"G*", "D1", "h1", some h1⟩ 1
          Run.blank) := rfl
    rw [heval] at hloop
    simp only [Outcome.ret.injEq, Prod.mk.injEq, true_and] at hloop
    obtain ⟨hitems, hs'⟩ := hloop
    refine ⟨s', hnil hitems.symm, ?_⟩
    rw [← hs']
    rfl

end Naconfig
